import Mathlib

/-
  Verification development for miti-loki (src/index.js), a Cloudflare worker
  that validates inbound log submissions and forwards them to a Loki push
  endpoint.  The source file contains three historical variants of the worker;
  the one embedded here is the final variant (the one with query-parameter
  labels and `validateLabelName`), which is the variant the specification's
  detailed behaviour describes.

  Modelling conventions:
  - JSON values produced by `JSON.parse` are modelled by `JsVal`
    (numbers as integers; object fields kept in insertion order).
  - The request body together with the outcome of `JSON.parse` is modelled by
    `Body` (empty body / parse error / parsed value).
  - `Date.now()` is passed in explicitly as `now : Nat`.
  - Thrown JavaScript exceptions are the `.error` layer of
    `Except String _`; early `return new Response(...)` values are `HttpResp`.
  - The outbound `fetch` is not performed; `handleRequest` instead returns
    `.forward url auth payload` describing exactly the call the code would
    make (auth is kept as the pre-base64 `user:pass` string).
-/

set_option maxHeartbeats 1000000

namespace MitiLoki

/-- JSON values as produced by JSON.parse. Numbers are modelled as integers
(the claims only involve integral numbers); object fields are listed in
insertion order and are distinct after parsing. -/
inductive JsVal : Type where
  | null : JsVal
  | bool : Bool → JsVal
  | num : Int → JsVal
  | str : String → JsVal
  | arr : List JsVal → JsVal
  | obj : List (String × JsVal) → JsVal

/-- JavaScript truthiness of a JSON value: `null`, `false`, `0` and `""` are
falsy; every array and every object (including `{}`) is truthy. -/
def truthy : JsVal → Bool
  | .null => false
  | .bool b => b
  | .num n => if n = 0 then false else true
  | .str s => if s = "" then false else true
  | .arr _ => true
  | .obj _ => true

/-- Truthiness of the result of a property access (`undefined` is falsy). -/
def truthyOpt : Option JsVal → Bool
  | none => false
  | some v => truthy v

/-- First-match association-list lookup for object fields. -/
def lookupField : List (String × JsVal) → String → Option JsVal
  | [], _ => none
  | (k, v) :: rest, key => if k = key then some v else lookupField rest key

/-- JavaScript property access `value[key]`: throws a TypeError on `null`,
returns the field on objects, and `undefined` (here `none`) on every other
value. The error text is V8's message. -/
def getProp : JsVal → String → Except String (Option JsVal)
  | .null, k =>
      .error ("Cannot read properties of null (reading '" ++ k ++ "')")
  | .obj fs, k => .ok (lookupField fs k)
  | _, _ => .ok none

mutual

/-- JavaScript `toString()` on a JSON value (`[1,2].toString() = "1,2"`,
objects give `"[object Object]"`). -/
def jsToString : JsVal → String
  | .null => "null"
  | .bool b => if b then "true" else "false"
  | .num n => toString n
  | .str s => s
  | .arr xs => String.intercalate "," (jsToStringElems xs)
  | .obj _ => "[object Object]"

/-- Array elements under `Array.prototype.toString`: `null` elements
render as the empty string. -/
def jsToStringElems : List JsVal → List String
  | [] => []
  | .null :: rest => "" :: jsToStringElems rest
  | v :: rest => jsToString v :: jsToStringElems rest

end

/-- An HTTP response produced directly by the worker (status and body;
every such response also carries CORS headers, which no claim concerns). -/
structure HttpResp : Type where
  status : Nat
  body : String
deriving DecidableEq, Repr

/-- A value-tuple pushed into the `values` array: `[timestamp, message]` or
`[timestamp, message, metadata]`. -/
inductive ValueTuple : Type where
  | two : String → JsVal → ValueTuple
  | three : String → JsVal → JsVal → ValueTuple

/-- Number of elements of a value-tuple. -/
def tupleSize : ValueTuple → Nat
  | .two _ _ => 2
  | .three _ _ _ => 3

/-- Timestamp component of a value-tuple. -/
def tupleTs : ValueTuple → String
  | .two ts _ => ts
  | .three ts _ _ => ts

/-- Response for an entry with a falsy `message`. -/
def missingMessageResp : HttpResp :=
  ⟨400, "Each log entry must have a \"message\" field"⟩

/-- Response for truthy metadata that is not a plain object. -/
def metaNotObjectResp : HttpResp :=
  ⟨400, "Metadata must be an object"⟩

/-- Response for a metadata field holding a nested object or array. -/
def nestedMetaResp (k : String) : HttpResp :=
  ⟨400, "Metadata field \"" ++ k ++
    "\" contains nested object. Only flat key-value pairs are allowed."⟩

/-- Response when a backend credential environment variable is falsy. -/
def configErrorResp : HttpResp :=
  ⟨500, "Server configuration error: Missing Loki credentials"⟩

/-- Response for an invalid query-parameter label name. -/
def invalidLabelResp (k : String) : HttpResp :=
  ⟨400, "Invalid label name \"" ++ k ++
    "\". Label names must match [a-zA-Z_:][a-zA-Z0-9_:]* and cannot start and end with double underscores."⟩

/-- Is a metadata value a nested structure (`typeof value === 'object'` and
not `null`, i.e. an array or an object)? -/
def isNestedValue : JsVal → Bool
  | .arr _ => true
  | .obj _ => true
  | _ => false

/-- First metadata key whose value is a nested object/array, in enumeration
order. -/
def findNested : List (String × JsVal) → Option String
  | [] => none
  | (k, v) :: rest => if isNestedValue v then some k else findNested rest

/-- Processing of one log entry inside the `for (const entry of logs)` loop:
validate `message`, compute the timestamp (provided-or-default), validate
`metadata` when truthy, and build the value-tuple.  The outer `Except String`
layer is a thrown exception (property access on `null`); the inner
`Except HttpResp` layer is an early `return` of a 400 response. -/
def processEntry (entry : JsVal) (now : Nat) :
    Except String (Except HttpResp ValueTuple) :=
  match getProp entry "message" with
  | .error e => .error e
  | .ok msgOpt =>
    if truthyOpt msgOpt then
      let msg := msgOpt.getD .null
      match getProp entry "timestamp" with
      | .error e => .error e
      | .ok tsOpt =>
        let timestampStr :=
          if truthyOpt tsOpt then jsToString (tsOpt.getD .null)
          else toString (now * 1000000)
        match getProp entry "metadata" with
        | .error e => .error e
        | .ok mdOpt =>
          if truthyOpt mdOpt then
            match mdOpt.getD .null with
            | .obj fields =>
              match findNested fields with
              | some k => .ok (.error (nestedMetaResp k))
              | none =>
                if fields.length > 0 then
                  .ok (.ok (.three timestampStr msg (.obj fields)))
                else
                  .ok (.ok (.two timestampStr msg))
            | _ => .ok (.error metaNotObjectResp)
          else
            .ok (.ok (.two timestampStr msg))
    else
      .ok (.error missingMessageResp)

/-- The entry loop: first thrown exception or first 400 aborts; otherwise all
value-tuples are collected in input order. -/
def buildValues : List JsVal → Nat → Except String (Except HttpResp (List ValueTuple))
  | [], _ => .ok (.ok [])
  | e :: rest, now =>
    match processEntry e now with
    | .error exn => .error exn
    | .ok (.error resp) => .ok (.error resp)
    | .ok (.ok v) =>
      match buildValues rest now with
      | .error exn => .error exn
      | .ok (.error resp) => .ok (.error resp)
      | .ok (.ok vs) => .ok (.ok (v :: vs))

/-- `Array.isArray(data) ? data : [data]`. -/
def toLogs : JsVal → List JsVal
  | .arr xs => xs
  | v => [v]

/-- Does the regular expression test `/^[a-zA-Z_:][a-zA-Z0-9_:]*$/` accept
this character in first position? -/
def labelStartChar (c : Char) : Bool :=
  c.isUpper || c.isLower || c = '_' || c = ':'

/-- Does the regular expression accept this character after the first? -/
def labelRestChar (c : Char) : Bool :=
  labelStartChar c || c.isDigit

/-- The test `/^[a-zA-Z_:][a-zA-Z0-9_:]*$/.test(name)`. -/
def matchesLabelRegex (s : String) : Bool :=
  match s.data with
  | [] => false
  | c :: cs => labelStartChar c && cs.all labelRestChar

/-- `name.startsWith('_')`. -/
def startsWithUnderscore (s : String) : Bool :=
  s.data.head? = some '_'

/-- `name.endsWith('_')`. -/
def endsWithUnderscore (s : String) : Bool :=
  s.data.getLast? = some '_'

/-- Label-name validation: the regular-expression test, then rejection of
names that both start and end with '_'. -/
def validateLabelName (name : String) : Bool :=
  if !matchesLabelRegex name then false
  else if startsWithUnderscore name && endsWithUnderscore name then false
  else true

/-- JavaScript object assignment `stream[key] = value` on a duplicate-free
association list: overwrite in place when the key exists, else append. -/
def setField : List (String × String) → String → String → List (String × String)
  | [], k, v => [(k, v)]
  | (k', v') :: rest, k, v =>
    if k' = k then (k, v) :: rest else (k', v') :: setField rest k v

/-- First-match lookup in a label set. -/
def getLabel : List (String × String) → String → Option String
  | [], _ => none
  | (k, v) :: rest, key => if k = key then some v else getLabel rest key

/-- The `for (const [key, value] of url.searchParams.entries())` loop:
validate each label name in order, assigning validated pairs into the
stream object; the first invalid name aborts with a 400 response. -/
def addParams : List (String × String) → List (String × String) →
    Except HttpResp (List (String × String))
  | acc, [] => .ok acc
  | acc, (k, v) :: rest =>
    if validateLabelName k then addParams (setField acc k v) rest
    else .error (invalidLabelResp k)

/-- The worker's environment bindings; `none` models an unset variable. -/
structure Env : Type where
  LOKI_HOST : Option String
  LOKI_USERNAME : Option String
  LOKI_PASSWORD : Option String
  LOKI_PORT : Option String
deriving DecidableEq, Repr

/-- JavaScript truthiness of `env.X` / `headers.get(X)`: unset (`undefined` /
`null`) and the empty string are falsy. -/
def truthyStr : Option String → Bool
  | none => false
  | some s => if s = "" then false else true

/-- `a || d` on a string-or-absent value. -/
def jsOr (a : Option String) (d : String) : String :=
  match a with
  | none => d
  | some s => if s = "" then d else s

/-- The request headers the worker reads. -/
structure Headers : Type where
  cfConnectingIP : Option String
  xForwardedFor : Option String
deriving DecidableEq, Repr

/-- `request.headers.get('CF-Connecting-IP') ||
request.headers.get('X-Forwarded-For') || 'unknown'`. -/
def resolveClientIP (h : Headers) : String :=
  jsOr h.cfConnectingIP (jsOr h.xForwardedFor "unknown")

/-- The request body together with the outcome of reading and JSON-parsing
it: empty text, non-empty text that fails to parse (with the parser's error
message), or non-empty text parsing to a JSON value. -/
inductive Body : Type where
  | empty : Body
  | invalid : String → Body
  | parsed : JsVal → Body

/-- The Loki payload the worker would send: the single stream's label set and
its values array. -/
structure Payload : Type where
  stream : List (String × String)
  values : List ValueTuple

/-- Observable outcome of `handleRequest`: a redirect, a direct HTTP
response (no outbound call made), or an outbound POST to Loki carrying the
assembled payload. -/
inductive Result : Type where
  | redirect : String → Result
  | response : HttpResp → Result
  | forward : (url : String) → (auth : String) → (payload : Payload) → Result

/-- Everything `handleRequest` does for a POST after the method check:
credential check, body checks, the entry loop, label assembly, and
construction of the outbound URL, credential and payload. -/
def handlePost (env : Env) (body : Body) (params : List (String × String))
    (hdrs : Headers) (now : Nat) : Result :=
  if truthyStr env.LOKI_HOST && truthyStr env.LOKI_USERNAME &&
      truthyStr env.LOKI_PASSWORD then
    match body with
    | .empty => .response ⟨400, "Request body is required"⟩
    | .invalid parseMsg => .response ⟨400, "Invalid JSON: " ++ parseMsg⟩
    | .parsed data =>
      match buildValues (toLogs data) now with
      | .error exn => .response ⟨500, "Error forwarding to Loki: " ++ exn⟩
      | .ok (.error resp) => .response resp
      | .ok (.ok values) =>
        match addParams [] params with
        | .error resp => .response resp
        | .ok base =>
          .forward
            ((if jsOr env.LOKI_PORT "443" = "443" then "https" else "http") ++
              "://" ++ env.LOKI_HOST.getD "" ++ ":" ++ jsOr env.LOKI_PORT "443" ++
              "/loki/api/v1/push")
            (env.LOKI_USERNAME.getD "" ++ ":" ++ env.LOKI_PASSWORD.getD "")
            ⟨setField (setField base "proxy" "miti-loki") "ip"
              (resolveClientIP hdrs), values⟩
  else
    .response configErrorResp

/-- The worker's request handler: GET redirects, non-POST is 405, POST goes
through `handlePost`.  (OPTIONS never reaches this function; the dispatcher
answers it separately.) -/
def handleRequest (method : String) (env : Env) (body : Body)
    (params : List (String × String)) (hdrs : Headers) (now : Nat) : Result :=
  if method = "GET" then
    .redirect "https://github.com/tiennm99/miti-loki"
  else if method = "POST" then
    handlePost env body params hdrs now
  else
    .response ⟨405, "Method not allowed. Please use POST."⟩

/-- Is this JSON value the literal `null`? -/
def isNull : JsVal → Bool
  | .null => true
  | _ => false

/-- Removal of every binding of a key from an object field list. -/
def eraseKeyList : List (String × JsVal) → String → List (String × JsVal)
  | [], _ => []
  | (k', v) :: rest, k =>
    if k' = k then eraseKeyList rest k else (k', v) :: eraseKeyList rest k

/-- The same JSON value with the named field removed (objects only; other
values have no fields to remove). -/
def eraseField : JsVal → String → JsVal
  | .obj fs, k => .obj (eraseKeyList fs k)
  | v, _ => v

/-- An entry has a truthy `message` property. -/
def hasTruthyMessage (e : JsVal) : Bool :=
  match getProp e "message" with
  | .ok o => truthyOpt o
  | .error _ => false

/-- An entry passes the loop's validation and yields a value-tuple. -/
def entryAccepted (e : JsVal) (now : Nat) : Bool :=
  match processEntry e now with
  | .ok (.ok _) => true
  | _ => false

/-- All three credential variables are truthy. -/
def envConfigured (env : Env) : Bool :=
  truthyStr env.LOKI_HOST && truthyStr env.LOKI_USERNAME &&
    truthyStr env.LOKI_PASSWORD

end MitiLoki

namespace MitiLoki

theorem getLabel_setField_self (l : List (String × String)) (k v : String) :
    getLabel (setField l k v) k = some v := by
  induction l with
  | nil => simp [setField, getLabel]
  | cons p rest ih =>
    obtain ⟨a, b⟩ := p
    by_cases hk : a = k
    · simp [setField, hk, getLabel]
    · simp [setField, hk, getLabel, ih]

theorem getLabel_setField_ne (l : List (String × String)) (k v k' : String)
    (h : k' ≠ k) : getLabel (setField l k v) k' = getLabel l k' := by
  induction l with
  | nil => simp [setField, getLabel, Ne.symm h]
  | cons p rest ih =>
    obtain ⟨a, b⟩ := p
    by_cases hk : a = k
    · simp [setField, hk, getLabel, Ne.symm h]
    · by_cases hak : a = k' <;> simp [setField, hk, getLabel, hak, ih, h]

theorem lookupField_eraseKeyList_self (fs : List (String × JsVal)) (k : String) :
    lookupField (eraseKeyList fs k) k = none := by
  induction fs with
  | nil => simp [eraseKeyList, lookupField]
  | cons p rest ih =>
    obtain ⟨a, b⟩ := p
    by_cases hk : a = k <;> simp [eraseKeyList, hk, lookupField, ih]

theorem lookupField_eraseKeyList_ne (fs : List (String × JsVal)) (k k' : String)
    (h : k' ≠ k) : lookupField (eraseKeyList fs k) k' = lookupField fs k' := by
  induction fs with
  | nil => simp [eraseKeyList]
  | cons p rest ih =>
    obtain ⟨a, b⟩ := p
    by_cases hk : a = k
    · subst hk
      simp [eraseKeyList, lookupField, Ne.symm h, ih]
    · by_cases hak : a = k' <;> simp [eraseKeyList, hk, lookupField, hak, ih, h]

theorem getProp_ok_of_not_null {e : JsVal} (hne : isNull e = false) (k : String) :
    ∃ o, getProp e k = .ok o := by
  cases e with
  | null => exact absurd hne (by simp [isNull])
  | bool b => exact ⟨none, rfl⟩
  | num n => exact ⟨none, rfl⟩
  | str s => exact ⟨none, rfl⟩
  | arr xs => exact ⟨none, rfl⟩
  | obj fs => exact ⟨lookupField fs k, rfl⟩

theorem processEntry_no_throw {e : JsVal} (hne : isNull e = false) (now : Nat) :
    ∃ res, processEntry e now = .ok res := by
  obtain ⟨o1, h1⟩ := getProp_ok_of_not_null hne "message"
  obtain ⟨o2, h2⟩ := getProp_ok_of_not_null hne "timestamp"
  obtain ⟨o3, h3⟩ := getProp_ok_of_not_null hne "metadata"
  unfold processEntry
  rw [h1, h2, h3]
  repeat' split
  all_goals first
    | exact ⟨_, rfl⟩
    | (exfalso; simp_all)

theorem processEntry_error_status {e : JsVal} {now : Nat} {r : HttpResp}
    (h : processEntry e now = .ok (.error r)) : r.status = 400 := by
  unfold processEntry at h
  repeat' split at h
  all_goals simp_all [missingMessageResp, nestedMetaResp, metaNotObjectResp]
  all_goals rw [← h]

theorem buildValues_ok_spec {logs : List JsVal} {now : Nat} {vs : List ValueTuple}
    (h : buildValues logs now = .ok (.ok vs)) :
    vs.length = logs.length ∧
    ∀ i (h1 : i < logs.length) (h2 : i < vs.length),
      processEntry (logs.get ⟨i, h1⟩) now = .ok (.ok (vs.get ⟨i, h2⟩)) := by
  induction logs generalizing vs with
  | nil =>
    unfold buildValues at h
    have hv : vs = [] := by simp_all
    subst hv
    exact ⟨rfl, fun i h1 h2 => absurd h1 (by simp at h1)⟩
  | cons e rest ih =>
    unfold buildValues at h
    cases hpe : processEntry e now with
    | error exn => rw [hpe] at h; exact Except.noConfusion h
    | ok inner =>
      cases inner with
      | error resp => rw [hpe] at h; simp at h
      | ok v =>
        rw [hpe] at h
        cases hbv : buildValues rest now with
        | error exn => rw [hbv] at h; exact Except.noConfusion h
        | ok inner2 =>
          cases inner2 with
          | error resp => rw [hbv] at h; simp at h
          | ok vs' =>
            rw [hbv] at h
            have hv : vs = v :: vs' := by simp_all
            subst hv
            obtain ⟨hl, hg⟩ := ih hbv
            refine ⟨by simp [hl], ?_⟩
            intro i h1 h2
            cases i with
            | zero => simpa using hpe
            | succ n =>
              have h1' : n < rest.length := by simpa using h1
              have h2' : n < vs'.length := by simpa using h2
              simpa using hg n h1' h2'

theorem buildValues_reject_of_bad_message {logs : List JsVal} {now : Nat}
    (hnn : ∀ e ∈ logs, isNull e = false)
    (hbad : ∃ e ∈ logs, hasTruthyMessage e = false) :
    ∃ r, buildValues logs now = .ok (.error r) ∧ r.status = 400 := by
  induction logs with
  | nil => simp at hbad
  | cons e rest ih =>
    have hne : isNull e = false := hnn e (List.mem_cons_self e rest)
    by_cases hm : hasTruthyMessage e = false
    · have hpe : processEntry e now = .ok (.error missingMessageResp) := by
        obtain ⟨o1, h1⟩ := getProp_ok_of_not_null hne "message"
        have ht : truthyOpt o1 = false := by
          unfold hasTruthyMessage at hm
          rw [h1] at hm
          exact hm
        unfold processEntry
        rw [h1]
        simp [ht]
      refine ⟨missingMessageResp, ?_, rfl⟩
      unfold buildValues
      rw [hpe]
    · have hm' : hasTruthyMessage e = true := by
        cases hh : hasTruthyMessage e
        · exact absurd hh hm
        · rfl
      have hbad' : ∃ x ∈ rest, hasTruthyMessage x = false := by
        obtain ⟨x, hx, hxf⟩ := hbad
        rcases List.mem_cons.mp hx with h | h
        · subst h; exact absurd hxf hm
        · exact ⟨x, h, hxf⟩
      obtain ⟨res, hres⟩ := processEntry_no_throw hne now
      cases res with
      | error resp =>
        refine ⟨resp, ?_, processEntry_error_status hres⟩
        unfold buildValues
        rw [hres]
      | ok v =>
        obtain ⟨r, hr, hr4⟩ := ih (fun x hx => hnn x (List.mem_cons_of_mem _ hx)) hbad'
        refine ⟨r, ?_, hr4⟩
        unfold buildValues
        rw [hres, hr]

theorem buildValues_append_null {pre post : List JsVal} {now : Nat}
    (hok : ∀ e ∈ pre, entryAccepted e now = true) :
    buildValues (pre ++ JsVal.null :: post) now =
      .error "Cannot read properties of null (reading 'message')" := by
  induction pre with
  | nil => rfl
  | cons e rest ih =>
    have he : entryAccepted e now = true := hok e (List.mem_cons_self _ _)
    unfold entryAccepted at he
    cases hpe : processEntry e now with
    | error exn => rw [hpe] at he; simp at he
    | ok inner =>
      cases inner with
      | error resp => rw [hpe] at he; simp at he
      | ok v =>
        have ihh := ih (fun x hx => hok x (List.mem_cons_of_mem _ hx))
        rw [List.cons_append]
        unfold buildValues
        rw [hpe, ihh]

theorem handleRequest_forward_inv {m : String} {env : Env} {body : Body}
    {params : List (String × String)} {hdrs : Headers} {now : Nat}
    {url auth : String} {payload : Payload}
    (h : handleRequest m env body params hdrs now = .forward url auth payload) :
    handlePost env body params hdrs now = .forward url auth payload := by
  unfold handleRequest at h
  split at h
  · exact Result.noConfusion h
  · split at h
    · exact h
    · exact Result.noConfusion h

theorem handlePost_forward_inv {env : Env} {body : Body}
    {params : List (String × String)} {hdrs : Headers} {now : Nat}
    {url auth : String} {payload : Payload}
    (h : handlePost env body params hdrs now = .forward url auth payload) :
    envConfigured env = true ∧
    ∃ data base,
      body = Body.parsed data ∧
      buildValues (toLogs data) now = .ok (.ok payload.values) ∧
      addParams [] params = .ok base ∧
      payload.stream =
        setField (setField base "proxy" "miti-loki") "ip" (resolveClientIP hdrs) ∧
      auth = env.LOKI_USERNAME.getD "" ++ ":" ++ env.LOKI_PASSWORD.getD "" ∧
      url = (if jsOr env.LOKI_PORT "443" = "443" then "https" else "http") ++
        "://" ++ env.LOKI_HOST.getD "" ++ ":" ++ jsOr env.LOKI_PORT "443" ++
        "/loki/api/v1/push" := by
  unfold handlePost at h
  split at h
  case isFalse => exact Result.noConfusion h
  case isTrue hc =>
    split at h
    · exact Result.noConfusion h
    · exact Result.noConfusion h
    · rename_i data
      split at h
      · exact Result.noConfusion h
      · exact Result.noConfusion h
      · rename_i values hbv
        split at h
        · exact Result.noConfusion h
        · rename_i base hap
          injection h with hu ha hp
          refine ⟨hc, data, base, rfl, ?_, hap, ?_, ha.symm, hu.symm⟩
          · rw [← hp]; exact hbv
          · rw [← hp]

/-- C7: when any one of the configured Loki host, username or password is
missing, a POST yields the 500 configuration-error response, for every
request body, query-parameter list and header set alike — the body is never
inspected. -/
theorem c7_missing_config_500 (env : Env) (body : Body)
    (params : List (String × String)) (hdrs : Headers) (now : Nat)
    (hmiss : env.LOKI_HOST = none ∨ env.LOKI_USERNAME = none ∨
      env.LOKI_PASSWORD = none) :
    handleRequest "POST" env body params hdrs now = .response configErrorResp := by
  have hfalse : (truthyStr env.LOKI_HOST && truthyStr env.LOKI_USERNAME &&
      truthyStr env.LOKI_PASSWORD) = false := by
    rcases hmiss with h | h | h <;> simp [h, truthyStr]
  unfold handleRequest
  rw [if_neg (by decide), if_pos rfl]
  unfold handlePost
  simp [hfalse]

/-- C7 witness: with the host unset, a well-formed POST body still gets the
500 configuration response. -/
theorem c7_missing_config_500_witness :
    (⟨none, some "u", some "p", none⟩ : Env).LOKI_HOST = none ∧
    handleRequest "POST" ⟨none, some "u", some "p", none⟩
      (.parsed (.obj [("message", .str "m")])) [] ⟨none, none⟩ 0 =
      .response configErrorResp :=
  ⟨rfl, c7_missing_config_500 _ _ _ _ _ (Or.inl rfl)⟩

/-- C6: whenever a submission is accepted (forwarded to Loki), the final
label set maps "proxy" to "miti-loki" and "ip" to the resolved client IP,
for every caller-supplied query-parameter list — including ones that supply
their own "proxy" or "ip" values. -/
theorem c6_injected_labels_win (m : String) (env : Env) (body : Body)
    (params : List (String × String)) (hdrs : Headers) (now : Nat)
    (url auth : String) (payload : Payload)
    (hfwd : handleRequest m env body params hdrs now = .forward url auth payload) :
    getLabel payload.stream "proxy" = some "miti-loki" ∧
    getLabel payload.stream "ip" = some (resolveClientIP hdrs) := by
  obtain ⟨-, data, base, -, -, -, hstream, -, -⟩ :=
    handlePost_forward_inv (handleRequest_forward_inv hfwd)
  rw [hstream]
  constructor
  · rw [getLabel_setField_ne _ _ _ _ (by decide)]
    exact getLabel_setField_self _ _ _
  · exact getLabel_setField_self _ _ _

/-- C6 witness: caller-supplied proxy/ip query parameters are overwritten by
the system's own values. -/
theorem c6_injected_labels_win_witness :
    handleRequest "POST" ⟨some "h", some "u", some "p", none⟩
      (.parsed (.obj [("message", .str "m")]))
      [("proxy", "evil"), ("ip", "1.2.3.4")] ⟨some "9.9.9.9", none⟩ 0 =
      .forward "https://h:443/loki/api/v1/push" "u:p"
        ⟨[("proxy", "miti-loki"), ("ip", "9.9.9.9")], [.two "0" (.str "m")]⟩ ∧
    (getLabel [("proxy", "miti-loki"), ("ip", "9.9.9.9")] "proxy" =
        some "miti-loki" ∧
      getLabel [("proxy", "miti-loki"), ("ip", "9.9.9.9")] "ip" =
        some (resolveClientIP ⟨some "9.9.9.9", none⟩)) :=
  ⟨rfl, c6_injected_labels_win "POST" ⟨some "h", some "u", some "p", none⟩
    (.parsed (.obj [("message", .str "m")]))
    [("proxy", "evil"), ("ip", "1.2.3.4")] ⟨some "9.9.9.9", none⟩ 0
    "https://h:443/loki/api/v1/push" "u:p"
    ⟨[("proxy", "miti-loki"), ("ip", "9.9.9.9")], [.two "0" (.str "m")]⟩ rfl⟩

/-- C1: whenever a POST with a parsed JSON body is forwarded and every input
entry has a truthy message, the values array has exactly one tuple per input
entry, in input order (the i-th tuple is the one produced from the i-th
entry). -/
theorem c1_one_tuple_per_entry (env : Env) (data : JsVal)
    (params : List (String × String)) (hdrs : Headers) (now : Nat)
    (url auth : String) (payload : Payload)
    (hmsg : ∀ e ∈ toLogs data, hasTruthyMessage e = true)
    (hfwd : handleRequest "POST" env (.parsed data) params hdrs now =
      .forward url auth payload) :
    payload.values.length = (toLogs data).length ∧
    ∀ i (h1 : i < (toLogs data).length) (h2 : i < payload.values.length),
      processEntry ((toLogs data).get ⟨i, h1⟩) now =
        .ok (.ok (payload.values.get ⟨i, h2⟩)) := by
  obtain ⟨-, data', base, hd, hbv, -, -, -, -⟩ :=
    handlePost_forward_inv (handleRequest_forward_inv hfwd)
  injection hd with hd
  subst hd
  exact buildValues_ok_spec hbv

/-- C1 witness: a two-entry array yields two tuples in order. -/
theorem c1_one_tuple_per_entry_witness :
    (∀ e ∈ toLogs (.arr [.obj [("message", JsVal.str "a")],
        .obj [("message", JsVal.str "b"), ("metadata", JsVal.obj [("k", JsVal.str "v")])]]),
      hasTruthyMessage e = true) ∧
    handleRequest "POST" ⟨some "h", some "u", some "p", none⟩
      (.parsed (.arr [.obj [("message", JsVal.str "a")],
        .obj [("message", JsVal.str "b"), ("metadata", JsVal.obj [("k", JsVal.str "v")])]]))
      [] ⟨none, none⟩ 0 =
      .forward "https://h:443/loki/api/v1/push" "u:p"
        ⟨[("proxy", "miti-loki"), ("ip", "unknown")],
          [.two "0" (JsVal.str "a"),
            .three "0" (JsVal.str "b") (JsVal.obj [("k", JsVal.str "v")])]⟩ ∧
    ([ValueTuple.two "0" (JsVal.str "a"),
        .three "0" (JsVal.str "b") (JsVal.obj [("k", JsVal.str "v")])].length =
      (toLogs (.arr [.obj [("message", JsVal.str "a")],
        .obj [("message", JsVal.str "b"),
          ("metadata", JsVal.obj [("k", JsVal.str "v")])]])).length) :=
  ⟨by decide, rfl,
    (c1_one_tuple_per_entry ⟨some "h", some "u", some "p", none⟩
      (.arr [.obj [("message", JsVal.str "a")],
        .obj [("message", JsVal.str "b"), ("metadata", JsVal.obj [("k", JsVal.str "v")])]])
      [] ⟨none, none⟩ 0 "https://h:443/loki/api/v1/push" "u:p"
      ⟨[("proxy", "miti-loki"), ("ip", "unknown")],
        [.two "0" (JsVal.str "a"),
          .three "0" (JsVal.str "b") (JsVal.obj [("k", JsVal.str "v")])]⟩
      (by decide) rfl).1⟩

/-- C8 counterexample: with LOKI_PORT set to the empty string — a set port
value different from "443" — the outbound scheme is still https, refuting
the claim that every port value other than "443" gives http. -/
theorem c8_counterexample_empty_port :
    (⟨some "h", some "u", some "p", some ""⟩ : Env).LOKI_PORT = some "" ∧
    (some "" : Option String) ≠ some "443" ∧
    handleRequest "POST" ⟨some "h", some "u", some "p", some ""⟩
      (.parsed (.obj [("message", .str "m")])) [] ⟨none, none⟩ 0 =
      .forward "https://h:443/loki/api/v1/push" "u:p"
        ⟨[("proxy", "miti-loki"), ("ip", "unknown")], [.two "0" (.str "m")]⟩ :=
  ⟨rfl, by decide, rfl⟩

/-- C8 (amended): the outbound URL is always
scheme://host:effectivePort/loki/api/v1/push where the effective port is
LOKI_PORT-or-"443", and the scheme is https exactly when LOKI_PORT is unset,
empty, or "443" (http otherwise). -/
theorem c8_amended_scheme_and_path (m : String) (env : Env) (body : Body)
    (params : List (String × String)) (hdrs : Headers) (now : Nat)
    (url auth : String) (payload : Payload)
    (hfwd : handleRequest m env body params hdrs now = .forward url auth payload) :
    url = (if jsOr env.LOKI_PORT "443" = "443" then "https" else "http") ++
      "://" ++ env.LOKI_HOST.getD "" ++ ":" ++ jsOr env.LOKI_PORT "443" ++
      "/loki/api/v1/push" ∧
    ((jsOr env.LOKI_PORT "443" = "443") ↔
      (env.LOKI_PORT = none ∨ env.LOKI_PORT = some "" ∨
        env.LOKI_PORT = some "443")) := by
  obtain ⟨-, data, base, -, -, -, -, -, hurl⟩ :=
    handlePost_forward_inv (handleRequest_forward_inv hfwd)
  refine ⟨hurl, ?_⟩
  cases hp : env.LOKI_PORT with
  | none => simp [jsOr]
  | some p =>
    by_cases hps : p = ""
    · subst hps; simp [jsOr]
    · simp [jsOr, hps]

/-- C8 amended witness: port "8080" gives an http URL on that port. -/
theorem c8_amended_scheme_and_path_witness :
    handleRequest "POST" ⟨some "h", some "u", some "p", some "8080"⟩
      (.parsed (.obj [("message", .str "m")])) [] ⟨none, none⟩ 0 =
      .forward "http://h:8080/loki/api/v1/push" "u:p"
        ⟨[("proxy", "miti-loki"), ("ip", "unknown")], [.two "0" (.str "m")]⟩ ∧
    "http://h:8080/loki/api/v1/push" =
      (if jsOr (some "8080") "443" = "443" then "https" else "http") ++ "://" ++
        "h" ++ ":" ++ jsOr (some "8080") "443" ++ "/loki/api/v1/push" :=
  ⟨rfl, (c8_amended_scheme_and_path "POST" ⟨some "h", some "u", some "p", some "8080"⟩
    (.parsed (.obj [("message", .str "m")])) [] ⟨none, none⟩ 0
    "http://h:8080/loki/api/v1/push" "u:p"
    ⟨[("proxy", "miti-loki"), ("ip", "unknown")], [.two "0" (.str "m")]⟩ rfl).1⟩

/-- C9 counterexample: a JSON array containing a null element whose earlier
entry already fails validation is answered with the 400 missing-message
response, not with a 500 — refuting the claim for arbitrary arrays that
contain a null. -/
theorem c9_counterexample_earlier_400 :
    handleRequest "POST" ⟨some "h", some "u", some "p", none⟩
      (.parsed (.arr [JsVal.obj [], JsVal.null])) [] ⟨none, none⟩ 0 =
      .response ⟨400, "Each log entry must have a \"message\" field"⟩ :=
  rfl

/-- C9 (amended): with the backend configured, a POST whose parsed body is an
array holding a null element, every entry before which passes validation,
yields the generic 500 response whose body starts with
"Error forwarding to Loki:" (reading .message of null throws, and the outer
catch turns the exception into the 500). -/
theorem c9_amended_null_entry_500 (env : Env) (pre post : List JsVal)
    (params : List (String × String)) (hdrs : Headers) (now : Nat)
    (hconf : envConfigured env = true)
    (hok : ∀ e ∈ pre, entryAccepted e now = true) :
    ∃ suffix, handleRequest "POST" env
        (.parsed (.arr (pre ++ JsVal.null :: post))) params hdrs now =
      .response ⟨500, "Error forwarding to Loki:" ++ suffix⟩ := by
  refine ⟨" Cannot read properties of null (reading 'message')", ?_⟩
  have hbv := @buildValues_append_null pre post now hok
  unfold handleRequest
  rw [if_neg (by decide), if_pos rfl]
  unfold handlePost
  unfold envConfigured at hconf
  simp only [hconf, if_true, toLogs]
  rw [hbv]
  rfl

/-- C9 amended witness: the array [valid entry, null] gives the 500 whose
body is the prefixed exception message. -/
theorem c9_amended_null_entry_500_witness :
    envConfigured ⟨some "h", some "u", some "p", none⟩ = true ∧
    (∀ e ∈ [JsVal.obj [("message", JsVal.str "a")]], entryAccepted e 0 = true) ∧
    ∃ suffix, handleRequest "POST" ⟨some "h", some "u", some "p", none⟩
        (.parsed (.arr ([JsVal.obj [("message", JsVal.str "a")]] ++
          JsVal.null :: []))) [] ⟨none, none⟩ 0 =
      .response ⟨500, "Error forwarding to Loki:" ++ suffix⟩ :=
  ⟨rfl, by decide,
    c9_amended_null_entry_500 ⟨some "h", some "u", some "p", none⟩
      [JsVal.obj [("message", JsVal.str "a")]] [] [] ⟨none, none⟩ 0 rfl (by decide)⟩

/-- C3: with the backend configured, if some entry of the parsed submission
(no entry being null) lacks a truthy message, the whole submission is
answered with a 400 response — the result is a direct response, so no
forward to Loki happens and no value-tuple is sent. -/
theorem c3_whole_submission_rejected (env : Env) (data : JsVal)
    (params : List (String × String)) (hdrs : Headers) (now : Nat)
    (hconf : envConfigured env = true)
    (hnn : ∀ e ∈ toLogs data, isNull e = false)
    (hbad : ∃ e ∈ toLogs data, hasTruthyMessage e = false) :
    ∃ r, handleRequest "POST" env (.parsed data) params hdrs now =
      .response r ∧ r.status = 400 := by
  obtain ⟨r, hr, h4⟩ := @buildValues_reject_of_bad_message (toLogs data) now hnn hbad
  refine ⟨r, ?_, h4⟩
  unfold handleRequest
  rw [if_neg (by decide), if_pos rfl]
  unfold handlePost
  unfold envConfigured at hconf
  simp only [hconf, if_true]
  rw [hr]

/-- C3 witness: a two-entry array whose second entry lacks a message is
rejected with a 400. -/
theorem c3_whole_submission_rejected_witness :
    envConfigured ⟨some "h", some "u", some "p", none⟩ = true ∧
    (∀ e ∈ toLogs (.arr [JsVal.obj [("message", JsVal.str "a")],
        JsVal.obj [("note", JsVal.str "x")]]), isNull e = false) ∧
    (∃ e ∈ toLogs (.arr [JsVal.obj [("message", JsVal.str "a")],
        JsVal.obj [("note", JsVal.str "x")]]), hasTruthyMessage e = false) ∧
    ∃ r, handleRequest "POST" ⟨some "h", some "u", some "p", none⟩
        (.parsed (.arr [JsVal.obj [("message", JsVal.str "a")],
          JsVal.obj [("note", JsVal.str "x")]])) [] ⟨none, none⟩ 0 =
      .response r ∧ r.status = 400 :=
  ⟨rfl, by decide, by decide,
    c3_whole_submission_rejected ⟨some "h", some "u", some "p", none⟩
      (.arr [JsVal.obj [("message", JsVal.str "a")],
        JsVal.obj [("note", JsVal.str "x")]]) [] ⟨none, none⟩ 0
      rfl (by decide) (by decide)⟩

theorem validateLabelName_iff (k : String) :
    validateLabelName k = true ↔
      (matchesLabelRegex k = true ∧
        ¬(startsWithUnderscore k = true ∧ endsWithUnderscore k = true)) := by
  unfold validateLabelName
  cases hm : matchesLabelRegex k <;>
    cases hs : startsWithUnderscore k <;>
      cases he : endsWithUnderscore k <;> simp

/-- C4: in an otherwise-valid POST carrying one query parameter, the
submission is rejected with the invalid-label 400 exactly when the name
falls outside the grammar [a-zA-Z_:][a-zA-Z0-9_:]* or both starts and ends
with an underscore; and the five examples behave as claimed. -/
theorem c4_label_grammar_iff :
    (∀ k v : String,
      (handleRequest "POST" ⟨some "h", some "u", some "p", none⟩
          (.parsed (.obj [("message", .str "m")])) [(k, v)] ⟨none, none⟩ 0 =
        .response (invalidLabelResp k)) ↔
      ¬(matchesLabelRegex k = true ∧
        ¬(startsWithUnderscore k = true ∧ endsWithUnderscore k = true))) ∧
    validateLabelName "_foo_" = false ∧
    validateLabelName "1foo" = false ∧
    validateLabelName "foo_bar" = true ∧
    validateLabelName "_foo" = true ∧
    validateLabelName "foo:bar" = true := by
  refine ⟨?_, by decide, by decide, by decide, by decide, by decide⟩
  intro k v
  have hpipe : handleRequest "POST" ⟨some "h", some "u", some "p", none⟩
      (.parsed (.obj [("message", .str "m")])) [(k, v)] ⟨none, none⟩ 0 =
      (match addParams [] [(k, v)] with
        | .error resp => .response resp
        | .ok base => .forward "https://h:443/loki/api/v1/push" "u:p"
            ⟨setField (setField base "proxy" "miti-loki") "ip" "unknown",
              [.two "0" (.str "m")]⟩) := rfl
  constructor
  · intro h hg
    have hvk : validateLabelName k = true := (validateLabelName_iff k).mpr hg
    have hadd : addParams [] [(k, v)] = .ok [(k, v)] := by
      simp [addParams, setField, hvk]
    rw [hpipe] at h
    simp [hadd] at h
  · intro hg
    have hvk : validateLabelName k = false := by
      cases hv : validateLabelName k
      · rfl
      · exact absurd ((validateLabelName_iff k).mp hv) hg
    have hadd : addParams [] [(k, v)] = .error (invalidLabelResp k) := by
      simp [addParams, hvk]
    rw [hpipe, hadd]

/-- C2: for every entry the loop accepts, the produced value-tuple has three
elements exactly when the entry's metadata is a (truthy) object with at
least one key, and two elements when metadata is absent or an empty
object. -/
theorem c2_tuple_arity (e : JsVal) (now : Nat) (v : ValueTuple)
    (h : processEntry e now = .ok (.ok v)) :
    (tupleSize v = 3 ↔
      ∃ fields, getProp e "metadata" = .ok (some (.obj fields)) ∧ fields ≠ []) ∧
    ((getProp e "metadata" = .ok none ∨
      getProp e "metadata" = .ok (some (.obj []))) → tupleSize v = 2) := by
  unfold processEntry at h
  cases hm : getProp e "message" with
  | error ex => rw [hm] at h; exact Except.noConfusion h
  | ok msgOpt =>
    rw [hm] at h
    simp only [] at h
    by_cases ht : truthyOpt msgOpt = true
    case neg =>
      rw [if_neg ht] at h
      simp at h
    case pos =>
      rw [if_pos ht] at h
      cases hts : getProp e "timestamp" with
      | error ex => rw [hts] at h; exact Except.noConfusion h
      | ok tsOpt =>
        rw [hts] at h
        simp only [] at h
        cases hmd : getProp e "metadata" with
        | error ex => rw [hmd] at h; exact Except.noConfusion h
        | ok mdOpt =>
          rw [hmd] at h
          simp only [] at h
          cases mdOpt with
          | none =>
            rw [if_neg (by decide)] at h
            simp only [Except.ok.injEq] at h
            subst h
            exact ⟨by simp [tupleSize], fun _ => by simp [tupleSize]⟩
          | some m =>
            cases m with
            | null =>
              rw [if_neg (by decide)] at h
              simp only [Except.ok.injEq] at h
              subst h
              exact ⟨by simp [tupleSize], fun _ => by simp [tupleSize]⟩
            | bool b =>
              cases b with
              | false =>
                rw [if_neg (by decide)] at h
                simp only [Except.ok.injEq] at h
                subst h
                exact ⟨by simp [tupleSize], fun _ => by simp [tupleSize]⟩
              | true =>
                rw [if_pos (by decide)] at h
                simp [Option.getD_some] at h
            | num n =>
              by_cases hn : n = 0
              · subst hn
                rw [if_neg (by decide)] at h
                simp only [Except.ok.injEq] at h
                subst h
                exact ⟨by simp [tupleSize], fun _ => by simp [tupleSize]⟩
              · rw [if_pos (by simp [truthyOpt, truthy, hn])] at h
                simp [Option.getD_some] at h
            | str s =>
              by_cases hs : s = ""
              · subst hs
                rw [if_neg (by decide)] at h
                simp only [Except.ok.injEq] at h
                subst h
                exact ⟨by simp [tupleSize], fun _ => by simp [tupleSize]⟩
              · rw [if_pos (by simp [truthyOpt, truthy, hs])] at h
                simp [Option.getD_some] at h
            | arr xs =>
              rw [if_pos (show truthyOpt (some (JsVal.arr xs)) = true from rfl)] at h
              simp [Option.getD_some] at h
            | obj fields =>
              rw [if_pos
                (show truthyOpt (some (JsVal.obj fields)) = true from rfl)] at h
              simp only [Option.getD_some] at h
              cases hfn : findNested fields with
              | some k =>
                rw [hfn] at h
                simp at h
              | none =>
                rw [hfn] at h
                simp only [] at h
                by_cases hlen : fields.length > 0
                · rw [if_pos hlen] at h
                  simp only [Except.ok.injEq] at h
                  subst h
                  constructor
                  · simp only [tupleSize]
                    constructor
                    · intro _
                      refine ⟨fields, rfl, ?_⟩
                      intro hnil
                      rw [hnil] at hlen
                      simp at hlen
                    · intro _; trivial
                  · rintro (hc | hc)
                    · simp at hc
                    · simp only [Except.ok.injEq, Option.some.injEq,
                        JsVal.obj.injEq] at hc
                      subst hc
                      simp at hlen
                · rw [if_neg hlen] at h
                  simp only [Except.ok.injEq] at h
                  subst h
                  have hnil : fields = [] := by
                    cases fields with
                    | nil => rfl
                    | cons a l => exact absurd (by simp) hlen
                  subst hnil
                  exact ⟨by simp [tupleSize], fun _ => by simp [tupleSize]⟩

/-- C2 witness: an entry with one metadata key yields a three-element
tuple. -/
theorem c2_tuple_arity_witness :
    processEntry (.obj [("message", JsVal.str "a"),
        ("metadata", JsVal.obj [("k", JsVal.num 1)])]) 0 =
      .ok (.ok (.three "0" (JsVal.str "a") (JsVal.obj [("k", JsVal.num 1)]))) ∧
    (tupleSize (.three "0" (JsVal.str "a") (JsVal.obj [("k", JsVal.num 1)])) = 3 ↔
      ∃ fields, getProp (.obj [("message", JsVal.str "a"),
          ("metadata", JsVal.obj [("k", JsVal.num 1)])]) "metadata" =
        .ok (some (.obj fields)) ∧ fields ≠ []) :=
  ⟨rfl, (c2_tuple_arity (.obj [("message", JsVal.str "a"),
      ("metadata", JsVal.obj [("k", JsVal.num 1)])]) 0
    (.three "0" (JsVal.str "a") (JsVal.obj [("k", JsVal.num 1)])) rfl).1⟩

/-- C5 counterexample: an entry whose metadata field is present but equals
the number 0 — present and not an object — is accepted and forwarded with a
two-element tuple instead of being rejected with the 400
"Metadata must be an object". -/
theorem c5_counterexample_falsy_metadata :
    getProp (.obj [("message", JsVal.str "a"), ("metadata", JsVal.num 0)])
      "metadata" = .ok (some (JsVal.num 0)) ∧
    handleRequest "POST" ⟨some "h", some "u", some "p", none⟩
      (.parsed (.obj [("message", JsVal.str "a"), ("metadata", JsVal.num 0)]))
      [] ⟨none, none⟩ 0 =
      .forward "https://h:443/loki/api/v1/push" "u:p"
        ⟨[("proxy", "miti-loki"), ("ip", "unknown")],
          [.two "0" (JsVal.str "a")]⟩ :=
  ⟨rfl, rfl⟩

theorem findNested_eq_none {fs : List (String × JsVal)}
    (h : ∀ p ∈ fs, isNestedValue p.2 = false) : findNested fs = none := by
  induction fs with
  | nil => rfl
  | cons p rest ih =>
    obtain ⟨k, v⟩ := p
    have hv : isNestedValue v = false := h (k, v) (List.mem_cons_self _ _)
    simp only [findNested, hv, Bool.false_eq_true, if_false]
    exact ih fun q hq => h q (List.mem_cons_of_mem _ hq)

/-- C5 (amended): for every entry with a truthy message whose metadata field
is present and truthy (falsy metadata — null, false, 0, "" — is ignored as
if absent): a metadata value that is not a plain object (including arrays)
gives the 400 "Metadata must be an object"; an object with a nested
object/array value gives the 400 naming the first such key; an object all
of whose values are scalars is accepted. -/
theorem c5_amended_metadata_validation (e : JsVal) (now : Nat) (m : JsVal)
    (hmd : getProp e "metadata" = .ok (some m))
    (htr : truthy m = true)
    (hmsg : hasTruthyMessage e = true) :
    ((∀ fs, m ≠ JsVal.obj fs) →
      processEntry e now = .ok (.error metaNotObjectResp)) ∧
    (∀ fs k, m = JsVal.obj fs → findNested fs = some k →
      processEntry e now = .ok (.error (nestedMetaResp k))) ∧
    (∀ fs, m = JsVal.obj fs → (∀ p ∈ fs, isNestedValue p.2 = false) →
      ∃ tv, processEntry e now = .ok (.ok tv)) := by
  have hnn : isNull e = false := by
    cases e with
    | null => simp [getProp] at hmd
    | bool b => rfl
    | num n => rfl
    | str s => rfl
    | arr xs => rfl
    | obj fs => rfl
  have hmm : ∃ o, getProp e "message" = .ok o ∧ truthyOpt o = true := by
    unfold hasTruthyMessage at hmsg
    cases hq : getProp e "message" with
    | error ex => rw [hq] at hmsg; exact absurd hmsg (by simp)
    | ok o => rw [hq] at hmsg; exact ⟨o, rfl, hmsg⟩
  obtain ⟨o, ho, hot⟩ := hmm
  obtain ⟨ots, hts⟩ := getProp_ok_of_not_null hnn "timestamp"
  refine ⟨?_, ?_, ?_⟩
  · intro hobj
    unfold processEntry
    rw [ho]
    simp only []
    rw [if_pos hot, hts]
    simp only []
    rw [hmd]
    simp only []
    rw [if_pos (show truthyOpt (some m) = true from htr)]
    simp only [Option.getD_some]
  · intro fs k hmfs hfn
    subst hmfs
    unfold processEntry
    rw [ho]
    simp only []
    rw [if_pos hot, hts]
    simp only []
    rw [hmd]
    simp only []
    rw [if_pos (show truthyOpt (some (JsVal.obj fs)) = true from htr)]
    simp only [Option.getD_some]
    rw [hfn]
  · intro fs hmfs hflat
    subst hmfs
    have hfn : findNested fs = none := findNested_eq_none hflat
    unfold processEntry
    rw [ho]
    simp only []
    rw [if_pos hot, hts]
    simp only []
    rw [hmd]
    simp only []
    rw [if_pos (show truthyOpt (some (JsVal.obj fs)) = true from htr)]
    simp only [Option.getD_some]
    rw [hfn]
    simp only []
    by_cases hlen : fs.length > 0
    · rw [if_pos hlen]
      exact ⟨_, rfl⟩
    · rw [if_neg hlen]
      exact ⟨_, rfl⟩

/-- C5 amended witness: truthy non-object metadata (a non-empty string) is
rejected with the 400 "Metadata must be an object". -/
theorem c5_amended_metadata_validation_witness :
    getProp (.obj [("message", JsVal.str "a"), ("metadata", JsVal.str "x")])
      "metadata" = .ok (some (JsVal.str "x")) ∧
    truthy (JsVal.str "x") = true ∧
    hasTruthyMessage (.obj [("message", JsVal.str "a"),
      ("metadata", JsVal.str "x")]) = true ∧
    ((∀ fs, JsVal.str "x" ≠ JsVal.obj fs) →
      processEntry (.obj [("message", JsVal.str "a"),
        ("metadata", JsVal.str "x")]) 0 = .ok (.error metaNotObjectResp)) :=
  ⟨rfl, rfl, rfl,
    (c5_amended_metadata_validation (.obj [("message", JsVal.str "a"),
      ("metadata", JsVal.str "x")]) 0 (JsVal.str "x") rfl rfl rfl).1⟩

/-- C10: an entry whose timestamp field is present but falsy (null, false,
0 or the empty string) is processed exactly as if the field were absent,
and any tuple it produces carries the synthesized default timestamp
(Date.now() * 1000000 as decimal text). -/
theorem c10_falsy_timestamp_default (e ts : JsVal) (now : Nat)
    (hts : getProp e "timestamp" = .ok (some ts))
    (hfalsy : truthy ts = false) :
    processEntry e now = processEntry (eraseField e "timestamp") now ∧
    ∀ v, processEntry e now = .ok (.ok v) →
      tupleTs v = toString (now * 1000000) := by
  cases e with
  | null => simp [getProp] at hts
  | bool b => simp [getProp] at hts
  | num n => simp [getProp] at hts
  | str s => simp [getProp] at hts
  | arr xs => simp [getProp] at hts
  | obj fs =>
    have hlk : lookupField fs "timestamp" = some ts := by
      simpa [getProp] using hts
    constructor
    · unfold processEntry eraseField
      simp only [getProp, hlk,
        lookupField_eraseKeyList_ne fs "timestamp" "message" (by decide),
        lookupField_eraseKeyList_ne fs "timestamp" "metadata" (by decide),
        lookupField_eraseKeyList_self, truthyOpt, hfalsy, Bool.false_eq_true,
        if_false]
    · intro v hv
      unfold processEntry at hv
      simp only [getProp, hlk, truthyOpt, hfalsy, Bool.false_eq_true,
        if_false] at hv
      repeat' split at hv
      all_goals first
        | (simp only [Except.ok.injEq] at hv; subst hv; rfl)
        | exact absurd hv (by simp)

/-- C10 witness: an empty-string timestamp is treated as absent and the
default timestamp is used. -/
theorem c10_falsy_timestamp_default_witness :
    getProp (.obj [("message", JsVal.str "m"), ("timestamp", JsVal.str "")])
      "timestamp" = .ok (some (JsVal.str "")) ∧
    truthy (JsVal.str "") = false ∧
    processEntry (.obj [("message", JsVal.str "m"),
        ("timestamp", JsVal.str "")]) 3 =
      processEntry (eraseField (.obj [("message", JsVal.str "m"),
        ("timestamp", JsVal.str "")]) "timestamp") 3 :=
  ⟨rfl, rfl,
    (c10_falsy_timestamp_default (.obj [("message", JsVal.str "m"),
      ("timestamp", JsVal.str "")]) (JsVal.str "") 3 rfl rfl).1⟩

end MitiLoki
